import Mathlib

/-!
Shallow embedding of the permamuseum marketplace and cultural-nft Soroban
contracts (src/contracts/marketplace/src/lib.rs and
src/contracts/cultural-nft/src/lib.rs), together with theorems settling the
specification claims about listings, auctions, bids, transfers, approvals
and provenance.

Modelling conventions:
- `Address` values are abstract identifiers, modelled as `Nat`.
- `require_auth` is modelled by a predicate `Auth : Addr → Bool` giving the
  set of principals the current caller has proven; an operation that calls
  `x.require_auth()` fails with `Unauthorized` when `auth x = false`.
- Soroban persistent storage maps are modelled as functions into `Option`.
- `i128` amounts are `Int` (only compared and stored, never combined
  arithmetically by the source); `u32` counters and the `u64` clock wrap,
  so increments are taken modulo `2 ^ 32` resp. `2 ^ 64`.
- A Rust `panic!` aborts the whole invocation with no state change, so each
  operation returns `Except MErr MarketState` (resp. `NErr NFTState`): the
  error constructors are named after the source's panic messages and the
  spec's error taxonomy.
-/

namespace Permamuseum

/-- Abstract contract/account addresses. -/
abbrev Addr := Nat

/-- The set of principals the current caller has proven via `require_auth`. -/
abbrev Auth := Addr → Bool

/-- Update a one-key storage map. -/
def upd1 {α : Type} (m : Nat → Option α) (k : Nat) (v : α) : Nat → Option α :=
  fun k2 => if k2 = k then some v else m k2

/-- Remove a key from a one-key storage map (`storage.remove`). -/
def del1 {α : Type} (m : Nat → Option α) (k : Nat) : Nat → Option α :=
  fun k2 => if k2 = k then none else m k2

/-- Update a storage map keyed by `(nft_contract, token_id)`. -/
def upd2 {α : Type} (m : Addr → Nat → Option α) (c : Addr) (t : Nat) (v : α) :
    Addr → Nat → Option α :=
  fun c2 t2 => if c2 = c ∧ t2 = t then some v else m c2 t2

/-- Update a storage map keyed by `(nft_contract, token_id, bidder)`. -/
def upd3 {α : Type} (m : Addr → Nat → Addr → Option α) (c : Addr) (t : Nat) (b : Addr)
    (v : α) : Addr → Nat → Addr → Option α :=
  fun c2 t2 b2 => if c2 = c ∧ t2 = t ∧ b2 = b then some v else m c2 t2 b2

/-- `Listing` struct of the marketplace contract. -/
structure Listing where
  seller : Addr
  nft_contract : Addr
  token_id : Nat
  price : Int
  active : Bool
  created_at : Nat
deriving DecidableEq, Repr

/-- `Auction` struct of the marketplace contract. -/
structure Auction where
  seller : Addr
  nft_contract : Addr
  token_id : Nat
  starting_price : Int
  current_bid : Int
  highest_bidder : Addr
  start_time : Nat
  end_time : Nat
  active : Bool
deriving DecidableEq, Repr

/-- `Bid` struct of the marketplace contract. -/
structure Bid where
  bidder : Addr
  amount : Int
  timestamp : Nat
deriving DecidableEq, Repr

/-- Marketplace panic outcomes, named after the source's panic messages and
the spec's error taxonomy. -/
inductive MErr where
  /-- `require_auth` failed for the claimed principal. -/
  | Unauthorized
  /-- panic "Price must be positive" -/
  | InvalidPrice
  /-- panic "NFT already listed" -/
  | AlreadyListed
  /-- panic "NFT not listed" -/
  | NotListed
  /-- panic "Listing not active" -/
  | ListingNotActive
  /-- panic "Cannot buy your own NFT" -/
  | SelfPurchase
  /-- panic "Starting price must be positive" -/
  | InvalidStartingPrice
  /-- panic "Duration must be positive" -/
  | InvalidDuration
  /-- panic "NFT already in auction" -/
  | AlreadyInAuction
  /-- panic "Auction not found" -/
  | AuctionNotFound
  /-- panic "Auction not active" -/
  | AuctionNotActive
  /-- panic "Auction ended" -/
  | AuctionEnded
  /-- panic "Bid must be higher than current bid" -/
  | BidTooLow
  /-- panic "Bid must be at least starting price" -/
  | BidBelowStartingPrice
  /-- panic "Listing not found" -/
  | ListingNotFound
  /-- panic "Not the seller" -/
  | NotTheSeller
  /-- panic "Auction not ended yet" -/
  | TooEarly
  /-- panic "Cannot cancel auction with bids" -/
  | HasBids
deriving DecidableEq, Repr

/-- Persistent and instance storage of the marketplace contract that the
public operations touch: the `LISTING`, `AUCTION` and `BID` keyed maps and
the two counters. -/
structure MarketState where
  listings : Addr → Nat → Option Listing
  auctions : Addr → Nat → Option Auction
  bids : Addr → Nat → Addr → Option Bid
  listing_count : Nat
  auction_count : Nat

/-- `Marketplace::list_nft`: seller auth, positive price, then fails
`AlreadyListed` when the `LISTING` key is already present (the source tests
key presence with `has`, not the `active` flag), else stores an active
listing and bumps the counter. -/
def list_nft (auth : Auth) (now : Nat) (st : MarketState) (seller nft_contract : Addr)
    (token_id : Nat) (price : Int) : Except MErr MarketState :=
  if auth seller = false then .error .Unauthorized
  else if price ≤ 0 then .error .InvalidPrice
  else if (st.listings nft_contract token_id).isSome then .error .AlreadyListed
  else
    .ok { st with
      listings := upd2 st.listings nft_contract token_id
        { seller := seller, nft_contract := nft_contract, token_id := token_id,
          price := price, active := true, created_at := now },
      listing_count := (st.listing_count + 1) % 2 ^ 32 }

/-- `Marketplace::buy_nft`: buyer auth, listing must exist, be active, and
not belong to the buyer; on success it only marks the listing inactive (the
token, payment and royalty legs are TODO stubs in the source). -/
def buy_nft (auth : Auth) (st : MarketState) (buyer nft_contract : Addr)
    (token_id : Nat) : Except MErr MarketState :=
  if auth buyer = false then .error .Unauthorized
  else
    match st.listings nft_contract token_id with
    | none => .error .NotListed
    | some listing =>
      if listing.active = false then .error .ListingNotActive
      else if listing.seller = buyer then .error .SelfPurchase
      else
        .ok { st with
          listings := upd2 st.listings nft_contract token_id { listing with active := false } }

/-- `Marketplace::create_auction`: seller auth, positive starting price,
nonzero duration, then fails `AlreadyInAuction` when the `AUCTION` key is
already present (key presence, not the `active` flag); else stores a fresh
active auction with `current_bid = 0` and `highest_bidder = seller`. -/
def create_auction (auth : Auth) (now : Nat) (st : MarketState) (seller nft_contract : Addr)
    (token_id : Nat) (starting_price : Int) (duration : Nat) : Except MErr MarketState :=
  if auth seller = false then .error .Unauthorized
  else if starting_price ≤ 0 then .error .InvalidStartingPrice
  else if duration = 0 then .error .InvalidDuration
  else if (st.auctions nft_contract token_id).isSome then .error .AlreadyInAuction
  else
    .ok { st with
      auctions := upd2 st.auctions nft_contract token_id
        { seller := seller, nft_contract := nft_contract, token_id := token_id,
          starting_price := starting_price, current_bid := 0,
          highest_bidder := seller, start_time := now,
          end_time := (now + duration) % 2 ^ 64, active := true },
      auction_count := (st.auction_count + 1) % 2 ^ 32 }

/-- `Marketplace::bid`: bidder auth; auction must exist, be active and not
ended (`now < end_time`); the amount must be strictly above the current bid
and at least the starting price; on success the auction's `current_bid` and
`highest_bidder` are replaced and the per-bidder `BID` record is upserted.
The source never compares the bidder against the seller. -/
def bid (auth : Auth) (now : Nat) (st : MarketState) (bidder nft_contract : Addr)
    (token_id : Nat) (amount : Int) : Except MErr MarketState :=
  if auth bidder = false then .error .Unauthorized
  else
    match st.auctions nft_contract token_id with
    | none => .error .AuctionNotFound
    | some auction =>
      if auction.active = false then .error .AuctionNotActive
      else if auction.end_time ≤ now then .error .AuctionEnded
      else if amount ≤ auction.current_bid then .error .BidTooLow
      else if amount < auction.starting_price then .error .BidBelowStartingPrice
      else
        .ok { st with
          auctions := upd2 st.auctions nft_contract token_id
            { auction with current_bid := amount, highest_bidder := bidder },
          bids := upd3 st.bids nft_contract token_id bidder
            { bidder := bidder, amount := amount, timestamp := now } }

/-- `Marketplace::end_auction`: takes no caller and performs no
`require_auth`; the auction must exist, be active, and `now < end_time`
fails `TooEarly` (panic "Auction not ended yet"); on success it only marks
the auction inactive (winner transfer / payment legs are TODO stubs). -/
def end_auction (now : Nat) (st : MarketState) (nft_contract : Addr)
    (token_id : Nat) : Except MErr MarketState :=
  match st.auctions nft_contract token_id with
  | none => .error .AuctionNotFound
  | some auction =>
    if auction.active = false then .error .AuctionNotActive
    else if now < auction.end_time then .error .TooEarly
    else
      .ok { st with
        auctions := upd2 st.auctions nft_contract token_id { auction with active := false } }

/-- `Marketplace::cancel_listing`: seller auth, listing must exist, the
stored seller must match, and the listing must be active; marks it
inactive (the record stays in storage). -/
def cancel_listing (auth : Auth) (st : MarketState) (seller nft_contract : Addr)
    (token_id : Nat) : Except MErr MarketState :=
  if auth seller = false then .error .Unauthorized
  else
    match st.listings nft_contract token_id with
    | none => .error .ListingNotFound
    | some listing =>
      if listing.seller ≠ seller then .error .NotTheSeller
      else if listing.active = false then .error .ListingNotActive
      else
        .ok { st with
          listings := upd2 st.listings nft_contract token_id { listing with active := false } }

/-- `Marketplace::cancel_auction`: seller auth, auction must exist, stored
seller must match, auction must be active and have no bids
(`current_bid > 0` fails `HasBids`); marks it inactive (the record stays in
storage). -/
def cancel_auction (auth : Auth) (st : MarketState) (seller nft_contract : Addr)
    (token_id : Nat) : Except MErr MarketState :=
  if auth seller = false then .error .Unauthorized
  else
    match st.auctions nft_contract token_id with
    | none => .error .AuctionNotFound
    | some auction =>
      if auction.seller ≠ seller then .error .NotTheSeller
      else if auction.active = false then .error .AuctionNotActive
      else if 0 < auction.current_bid then .error .HasBids
      else
        .ok { st with
          auctions := upd2 st.auctions nft_contract token_id { auction with active := false } }

/-- `CulturalMetadata` struct of the cultural-nft contract. -/
structure CulturalMetadata where
  title : String
  artist : String
  period : String
  culture : String
  material : String
  dimensions : String
  condition : String
  significance : String
  museum_address : Addr
deriving DecidableEq, Repr

/-- `PROVENANCERecord` struct of the cultural-nft contract (the `from` and
`to` fields become `fromAddr`/`toAddr`, since `from` is reserved). -/
structure PROVENANCERecord where
  date : Nat
  fromAddr : Addr
  toAddr : Addr
  transaction_type : String
  notes : String
deriving DecidableEq, Repr

/-- Cultural-nft panic outcomes, named after the source's panic messages. -/
inductive NErr where
  /-- `require_auth` failed for the claimed principal. -/
  | Unauthorized
  /-- the `ADMIN` instance key is unset, so `unwrap` panics -/
  | NotInitialized
  /-- panic "Token already exists" -/
  | TokenAlreadyExists
  /-- panic "Token does not exist" -/
  | TokenNotFound
  /-- panic "Not the owner" -/
  | NotTheOwner
  /-- panic "Not approved" -/
  | NotApproved
deriving DecidableEq, Repr

/-- Storage of the cultural-nft contract touched by mint, transfer,
approve and transfer_from: the `OWNER`, `METADATA`, `PROV` and `APPROVAL`
keyed maps, the token counter and the admin. -/
structure NFTState where
  owners : Nat → Option Addr
  metadata : Nat → Option CulturalMetadata
  provenance : Nat → Option (List PROVENANCERecord)
  approvals : Nat → Option Addr
  token_count : Nat
  admin : Option Addr

/-- `CulturalNFT::mint_cultural_nft`: admin auth, fails if the `OWNER` key
for `token_id` is taken; stores owner, metadata and the given provenance
and bumps the token counter. -/
def mint_cultural_nft (auth : Auth) (st : NFTState) (toAddr : Addr) (token_id : Nat)
    (cultural_metadata : CulturalMetadata) (provenance : List PROVENANCERecord) :
    Except NErr NFTState :=
  match st.admin with
  | none => .error .NotInitialized
  | some admin =>
    if auth admin = false then .error .Unauthorized
    else if (st.owners token_id).isSome then .error .TokenAlreadyExists
    else
      .ok { st with
        owners := upd1 st.owners token_id toAddr,
        metadata := upd1 st.metadata token_id cultural_metadata,
        provenance := upd1 st.provenance token_id provenance,
        token_count := (st.token_count + 1) % 2 ^ 32 }

/-- `CulturalNFT::transfer`: `from` auth; the token must exist and its
recorded owner must equal `from`; reassigns the owner and appends a
provenance record with `transaction_type = "transfer"`. The source never
touches the `APPROVAL` key here. -/
def transfer (auth : Auth) (now : Nat) (st : NFTState) (fromAddr toAddr : Addr)
    (token_id : Nat) : Except NErr NFTState :=
  if auth fromAddr = false then .error .Unauthorized
  else
    match st.owners token_id with
    | none => .error .TokenNotFound
    | some current_owner =>
      if current_owner ≠ fromAddr then .error .NotTheOwner
      else
        .ok { st with
          owners := upd1 st.owners token_id toAddr,
          provenance := upd1 st.provenance token_id
            ((st.provenance token_id).getD [] ++
              [{ date := now, fromAddr := fromAddr, toAddr := toAddr,
                 transaction_type := "transfer", notes := "Direct transfer" }]) }

/-- `CulturalNFT::approve`: `from` auth; the token must exist and belong to
`from`; stores `to` under the `APPROVAL` key, overwriting any prior
delegate. -/
def approve (auth : Auth) (st : NFTState) (fromAddr toAddr : Addr)
    (token_id : Nat) : Except NErr NFTState :=
  if auth fromAddr = false then .error .Unauthorized
  else
    match st.owners token_id with
    | none => .error .TokenNotFound
    | some current_owner =>
      if current_owner ≠ fromAddr then .error .NotTheOwner
      else .ok { st with approvals := upd1 st.approvals token_id toAddr }

/-- `CulturalNFT::transfer_from`: spender auth; the token must exist, be
owned by `from`, and the stored delegate must equal the spender; reassigns
the owner, removes the `APPROVAL` record and appends a provenance record
with `transaction_type = "transfer_from"`. -/
def transfer_from (auth : Auth) (now : Nat) (st : NFTState)
    (spender fromAddr toAddr : Addr) (token_id : Nat) : Except NErr NFTState :=
  if auth spender = false then .error .Unauthorized
  else
    match st.owners token_id with
    | none => .error .TokenNotFound
    | some current_owner =>
      if current_owner ≠ fromAddr then .error .NotTheOwner
      else
        match st.approvals token_id with
        | none => .error .NotApproved
        | some approved =>
          if approved ≠ spender then .error .NotApproved
          else
            .ok { st with
              owners := upd1 st.owners token_id toAddr,
              approvals := del1 st.approvals token_id,
              provenance := upd1 st.provenance token_id
                ((st.provenance token_id).getD [] ++
                  [{ date := now, fromAddr := fromAddr, toAddr := toAddr,
                     transaction_type := "transfer_from", notes := "Approved transfer" }]) }

/-- Combined state of the Asset Registry (cultural-nft) and the Exchange
Engine (marketplace), used to observe what a marketplace settlement does to
registry storage. -/
structure SystemState where
  market : MarketState
  nft : NFTState

/-- The cross-contract effect of `Marketplace::buy_nft`: the source's body
only mutates marketplace storage — the NFT transfer, payment and provenance
legs are explicit TODO stubs — so the registry component is returned
unchanged. -/
def sys_buy_nft (auth : Auth) (st : SystemState) (buyer nft_contract : Addr)
    (token_id : Nat) : Except MErr SystemState :=
  match buy_nft auth st.market buyer nft_contract token_id with
  | .error e => .error e
  | .ok m2 => .ok { st with market := m2 }

/-- The cross-contract effect of `Marketplace::end_auction`: even when
`current_bid > 0` the source's winner-transfer and payment legs are TODO
stubs, so the registry component is returned unchanged. -/
def sys_end_auction (now : Nat) (st : SystemState) (nft_contract : Addr)
    (token_id : Nat) : Except MErr SystemState :=
  match end_auction now st.market nft_contract token_id with
  | .error e => .error e
  | .ok m2 => .ok { st with market := m2 }

/-- The spec's auction invariant: a nonnegative current bid that determines
whether the highest bidder is still the seller placeholder. -/
def AuctionInv (a : Auction) : Prop :=
  0 ≤ a.current_bid ∧ (a.current_bid = 0 → a.highest_bidder = a.seller) ∧
    (0 < a.current_bid → a.highest_bidder ≠ a.seller)

/-- The first half of the spec's auction invariant on its own: the current
bid is nonnegative and, while it is zero, the highest bidder is the seller
placeholder. -/
def AuctionInvZero (a : Auction) : Prop :=
  0 ≤ a.current_bid ∧ (a.current_bid = 0 → a.highest_bidder = a.seller)

/-! ## Concrete fixtures used by witnesses and counterexamples -/

/-- A caller who has proven every principal. -/
def allAuth : Auth := fun _ => true

/-- A caller who has proven no principal at all. -/
def noAuth : Auth := fun _ => false

/-- Freshly initialized marketplace storage. -/
def st0 : MarketState :=
  { listings := fun _ _ => none, auctions := fun _ _ => none,
    bids := fun _ _ _ => none, listing_count := 0, auction_count := 0 }

/-- A fresh auction by seller 1 on asset (5, 7): starting price 100, no bid
yet, ends at time 200. -/
def auct0 : Auction :=
  { seller := 1, nft_contract := 5, token_id := 7, starting_price := 100,
    current_bid := 0, highest_bidder := 1, start_time := 0, end_time := 200,
    active := true }

/-- Marketplace storage holding only the fresh auction `auct0`. -/
def stAuct : MarketState := { st0 with auctions := upd2 st0.auctions 5 7 auct0 }

/-- Marketplace storage holding only an already-deactivated auction record
for asset (5, 7). -/
def stEnded : MarketState :=
  { st0 with auctions := upd2 st0.auctions 5 7 { auct0 with active := false } }

/-- An active fixed-price listing by seller 1 on asset (5, 7) at price 100. -/
def listing0 : Listing :=
  { seller := 1, nft_contract := 5, token_id := 7, price := 100,
    active := true, created_at := 0 }

/-- Marketplace storage holding only the active listing `listing0`. -/
def stList : MarketState := { st0 with listings := upd2 st0.listings 5 7 listing0 }

/-- Sample cultural metadata. -/
def meta0 : CulturalMetadata :=
  { title := "t", artist := "a", period := "p", culture := "c", material := "m",
    dimensions := "d", condition := "good", significance := "s",
    museum_address := 9 }

/-- Freshly initialized cultural-nft storage with admin 0. -/
def nft0 : NFTState :=
  { owners := fun _ => none, metadata := fun _ => none,
    provenance := fun _ => none, approvals := fun _ => none,
    token_count := 0, admin := some 0 }

/-- Cultural-nft storage where token 7 is owned by address 1 with an empty
provenance chain. -/
def nftA : NFTState :=
  { nft0 with owners := upd1 nft0.owners 7 1,
              provenance := upd1 nft0.provenance 7 [] }

/-- Combined state: token 7 owned by 1 in the registry, actively listed by 1
on the marketplace. -/
def sysList : SystemState := { market := stList, nft := nftA }

/-- The auction `auct0` after a winning bid of 150 by address 2. -/
def auctBid : Auction := { auct0 with current_bid := 150, highest_bidder := 2 }

/-- Combined state: token 7 owned by 1 in the registry, in auction with a
standing 150 bid by address 2 on the marketplace. -/
def sysAuct : SystemState :=
  { market := { st0 with auctions := upd2 st0.auctions 5 7 auctBid }, nft := nftA }

/-! ## Inversion helpers -/

/-- Success inversion for `bid`: a successful bid names an existing active,
unexpired auction, strictly beats its current bid, reaches the starting
price, and replaces `current_bid`/`highest_bidder` while upserting the
`BID` record. -/
theorem bid_ok {auth : Auth} {now : Nat} {st : MarketState} {bidder nc : Addr}
    {tid : Nat} {amount : Int} {st2 : MarketState}
    (h : bid auth now st bidder nc tid amount = .ok st2) :
    ∃ a, st.auctions nc tid = some a ∧ auth bidder = true ∧ a.active = true ∧
      now < a.end_time ∧ a.current_bid < amount ∧ a.starting_price ≤ amount ∧
      st2 = { st with
        auctions := upd2 st.auctions nc tid
          { a with current_bid := amount, highest_bidder := bidder },
        bids := upd3 st.bids nc tid bidder
          { bidder := bidder, amount := amount, timestamp := now } } := by
  unfold bid at h
  split at h
  · exact Except.noConfusion h
  next hauth =>
    split at h
    · exact Except.noConfusion h
    next auction heq =>
      split at h
      · exact Except.noConfusion h
      next hact =>
        split at h
        · exact Except.noConfusion h
        next hend =>
          split at h
          · exact Except.noConfusion h
          next hlow =>
            split at h
            · exact Except.noConfusion h
            next hstart =>
              injection h with h
              exact ⟨auction, heq, by simpa using hauth, by simpa using hact,
                by omega, by omega, by omega, h.symm⟩

/-- Reading the auction map right after `upd2` at the same key. -/
theorem upd2_same {α : Type} (m : Addr → Nat → Option α) (c : Addr) (t : Nat)
    (v : α) : upd2 m c t v c t = some v := by
  simp [upd2]

/-! ## C1 -/

/-- C1 counterexample: the claim asserts the invariant `current_bid > 0 →
highest_bidder ≠ seller` is preserved by every successful bid, including one
placed by the seller. But `bid` never compares the bidder to the seller:
seller 1 creates an auction on asset (5, 7) with starting price 100 and then
successfully bids 100 on it, reaching a state with `current_bid = 100 > 0`
and `highest_bidder = 1 = seller`. -/
theorem C1_seller_bid_counterexample :
    ((create_auction allAuth 0 st0 1 5 7 100 200).bind fun st1 =>
        bid allAuth 10 st1 1 5 7 100).map
      (fun st2 => (st2.auctions 5 7).map fun a =>
        (a.current_bid, a.highest_bidder, a.seller))
      = .ok (some (100, 1, 1)) := rfl

/-- C1 (amended): `create_auction` establishes the full invariant
`AuctionInv` (`current_bid = 0` with `highest_bidder = seller`). Every
successful `bid` — including one placed by the seller themself — preserves
the first half `AuctionInvZero` (the new bid is strictly positive, so the
`current_bid = 0` implication stays true), and additionally yields the full
`AuctionInv` whenever the bidder is not the auction's seller; a seller's
own bid breaks only the second half, as the counterexample shows. Finally,
`end_auction` and `cancel_auction` — the only other operations writing
auction records — leave `current_bid`, `highest_bidder` and `seller`
unchanged, so they preserve both halves across all reachable states. -/
theorem C1_invariant_amended :
    (∀ auth now st seller nc tid sp dur st2,
        create_auction auth now st seller nc tid sp dur = .ok st2 →
        ∀ a, st2.auctions nc tid = some a → AuctionInv a) ∧
    (∀ auth now st bidder nc tid amount st2,
        (∀ a, st.auctions nc tid = some a → AuctionInvZero a) →
        bid auth now st bidder nc tid amount = .ok st2 →
        ∀ a2, st2.auctions nc tid = some a2 →
          AuctionInvZero a2 ∧ (bidder ≠ a2.seller → AuctionInv a2)) ∧
    (∀ now st nc tid st2 a, st.auctions nc tid = some a →
        end_auction now st nc tid = .ok st2 →
        ∀ a2, st2.auctions nc tid = some a2 →
          a2.current_bid = a.current_bid ∧ a2.highest_bidder = a.highest_bidder ∧
            a2.seller = a.seller) ∧
    (∀ auth st seller nc tid st2 a, st.auctions nc tid = some a →
        cancel_auction auth st seller nc tid = .ok st2 →
        ∀ a2, st2.auctions nc tid = some a2 →
          a2.current_bid = a.current_bid ∧ a2.highest_bidder = a.highest_bidder ∧
            a2.seller = a.seller) := by
  refine ⟨?_, ?_, ?_, ?_⟩
  · intro auth now st seller nc tid sp dur st2 h a ha
    unfold create_auction at h
    split at h
    · exact Except.noConfusion h
    split at h
    · exact Except.noConfusion h
    split at h
    · exact Except.noConfusion h
    split at h
    · exact Except.noConfusion h
    injection h with h
    subst h
    have ha2 : upd2 st.auctions nc tid
        { seller := seller, nft_contract := nc, token_id := tid,
          starting_price := sp, current_bid := 0, highest_bidder := seller,
          start_time := now, end_time := (now + dur) % 2 ^ 64,
          active := true } nc tid = some a := ha
    rw [upd2_same] at ha2
    injection ha2 with ha2
    subst ha2
    exact ⟨by norm_num, fun _ => rfl, fun hc => absurd hc (by norm_num)⟩
  · intro auth now st bidder nc tid amount st2 hInv h a2 ha2
    obtain ⟨a, heq, -, -, -, hlt, -, hst2⟩ := bid_ok h
    obtain ⟨hnn, -⟩ := hInv a heq
    subst hst2
    have hA : upd2 st.auctions nc tid
        { a with current_bid := amount, highest_bidder := bidder } nc tid
        = some a2 := ha2
    rw [upd2_same] at hA
    injection hA with hA
    subst hA
    refine ⟨⟨by simp; omega, fun h0 => absurd h0 (by simp; omega)⟩, fun hne => ?_⟩
    exact ⟨by simp; omega, fun h0 => absurd h0 (by simp; omega), fun _ => hne⟩
  · intro now st nc tid st2 a heq h a2 ha2
    unfold end_auction at h
    split at h
    · exact Except.noConfusion h
    next a0 heq0 =>
      split at h
      · exact Except.noConfusion h
      split at h
      · exact Except.noConfusion h
      injection h with h
      subst h
      rw [heq] at heq0
      injection heq0 with heq0
      subst heq0
      have hA : upd2 st.auctions nc tid { a with active := false } nc tid
          = some a2 := ha2
      rw [upd2_same] at hA
      injection hA with hA
      subst hA
      exact ⟨rfl, rfl, rfl⟩
  · intro auth st seller nc tid st2 a heq h a2 ha2
    unfold cancel_auction at h
    split at h
    · exact Except.noConfusion h
    split at h
    · exact Except.noConfusion h
    next a0 heq0 =>
      split at h
      · exact Except.noConfusion h
      split at h
      · exact Except.noConfusion h
      split at h
      · exact Except.noConfusion h
      injection h with h
      subst h
      rw [heq] at heq0
      injection heq0 with heq0
      subst heq0
      have hA : upd2 st.auctions nc tid { a with active := false } nc tid
          = some a2 := ha2
      rw [upd2_same] at hA
      injection hA with hA
      subst hA
      exact ⟨rfl, rfl, rfl⟩

/-- C1 witness: the amended invariant applied to a concrete bid — address 2
bids 150 on the fresh auction `auct0`; the stored auction satisfies the
first half `AuctionInvZero` (as it would for any bidder) and, address 2 not
being the seller, the full `AuctionInv`. -/
theorem C1_invariant_witness : AuctionInvZero auctBid ∧ AuctionInv auctBid := by
  have h : bid allAuth 10 stAuct 2 5 7 150 = .ok
      { stAuct with
        auctions := upd2 stAuct.auctions 5 7 auctBid,
        bids := upd3 stAuct.bids 5 7 2
          { bidder := 2, amount := 150, timestamp := 10 } } := rfl
  have hpre : ∀ a, stAuct.auctions 5 7 = some a → AuctionInvZero a := by
    intro a ha
    have h0 : stAuct.auctions 5 7 = some auct0 := rfl
    rw [h0] at ha
    injection ha with ha
    subst ha
    exact ⟨by norm_num [auct0], fun _ => rfl⟩
  have hmain := C1_invariant_amended.2.1 allAuth 10 stAuct 2 5 7 150 _ hpre h auctBid
    (show upd2 stAuct.auctions 5 7 auctBid 5 7 = some auctBid from upd2_same ..)
  exact ⟨hmain.1, hmain.2 (by norm_num [auctBid, auct0])⟩

/-! ## C2 -/

/-- C2 counterexample: the claim asserts that after a listing is deactivated
by `cancel_listing`, a new `list_nft` for the same asset succeeds. In the
source, seller 1 lists asset (5, 7), cancels (so the stored record is
present but inactive), and then a fresh `list_nft` still fails
`AlreadyListed`, because the existence check tests key presence, not the
active flag. -/
theorem C2_relist_counterexample :
    ((list_nft allAuth 0 st0 1 5 7 100).bind fun st1 =>
        (cancel_listing allAuth st1 1 5 7).map fun st2 =>
          (st2.listings 5 7).map Listing.active) = .ok (some false) ∧
    ((list_nft allAuth 0 st0 1 5 7 100).bind fun st1 =>
        (cancel_listing allAuth st1 1 5 7).bind fun st2 =>
          list_nft allAuth 20 st2 1 5 7 100) = .error .AlreadyListed :=
  ⟨rfl, rfl⟩

/-- C2 (amended): with the seller authenticated and a positive price,
`list_nft` fails `AlreadyListed` exactly when a listing record — active or
not — exists for the asset, and both `cancel_listing` and `buy_nft` keep
the (deactivated) record in storage, so a deactivated listing permanently
blocks re-listing. -/
theorem C2_presence_blocks_relisting :
    (∀ auth now st seller nc tid price, auth seller = true → 0 < price →
        (list_nft auth now st seller nc tid price = .error .AlreadyListed ↔
          (st.listings nc tid).isSome = true)) ∧
    (∀ auth st seller nc tid st2, cancel_listing auth st seller nc tid = .ok st2 →
        (st2.listings nc tid).isSome = true) ∧
    (∀ auth st buyer nc tid st2, buy_nft auth st buyer nc tid = .ok st2 →
        (st2.listings nc tid).isSome = true) := by
  refine ⟨?_, ?_, ?_⟩
  · intro auth now st seller nc tid price ha hp
    cases hs : (st.listings nc tid).isSome <;>
      simp [list_nft, ha, hp.not_le, hs]
  · intro auth st seller nc tid st2 h
    unfold cancel_listing at h
    split at h
    · exact Except.noConfusion h
    split at h
    · exact Except.noConfusion h
    next listing heq =>
      split at h
      · exact Except.noConfusion h
      split at h
      · exact Except.noConfusion h
      injection h with h
      subst h
      show (upd2 st.listings nc tid { listing with active := false } nc tid).isSome = true
      rw [upd2_same]
      rfl
  · intro auth st buyer nc tid st2 h
    unfold buy_nft at h
    split at h
    · exact Except.noConfusion h
    split at h
    · exact Except.noConfusion h
    next listing heq =>
      split at h
      · exact Except.noConfusion h
      split at h
      · exact Except.noConfusion h
      injection h with h
      subst h
      show (upd2 st.listings nc tid { listing with active := false } nc tid).isSome = true
      rw [upd2_same]
      rfl

/-- C2 witness: the amended claim applied at a state already holding a
listing record for asset (5, 7): a fresh `list_nft` fails `AlreadyListed`. -/
theorem C2_witness :
    list_nft allAuth 0 stList 1 5 7 100 = .error .AlreadyListed :=
  (C2_presence_blocks_relisting.1 allAuth 0 stList 1 5 7 100 rfl
    (by norm_num)).mpr rfl

/-! ## C3 -/

/-- C3: at the failing input — token 7 owned by seller 1 in the registry and
actively listed at price 100 — a successful `buy_nft` by buyer 2 deactivates
the listing but leaves the registry untouched: the recorded owner is still
the seller (1, not 2) and the provenance chain is still empty, because the
source's token-transfer and provenance legs are TODO stubs. -/
theorem C3_buy_nft_stub :
    (sys_buy_nft allAuth sysList 2 5 7).map
      (fun st2 => ((st2.market.listings 5 7).map Listing.active,
        st2.nft.owners 7, (st2.nft.provenance 7).map List.length))
      = .ok (some false, some 1, some 0) := rfl

/-! ## C4 -/

/-- C4 counterexample: the claim asserts a direct `transfer` clears any
approval and a subsequent `transfer_from` by the old delegate fails. In the
source: admin mints token 7 to address 1, address 1 approves delegate 4,
then directly transfers the token to address 2 — after which the approval
for token 7 still names delegate 4, and `transfer_from` by delegate 4
(moving the token from new owner 2 to address 3) succeeds. -/
theorem C4_stale_approval_counterexample :
    ((mint_cultural_nft allAuth nft0 1 7 meta0 []).bind fun s1 =>
        (approve allAuth s1 1 4 7).bind fun s2 =>
          (transfer allAuth 10 s2 1 2 7).bind fun s3 =>
            (transfer_from allAuth 20 s3 4 2 3 7).map fun s4 =>
              (s3.approvals 7, s4.owners 7))
      = .ok (some 4, some 3) := rfl

/-- C4 (amended): a successful direct `transfer` leaves the `APPROVAL`
storage untouched at every token, so a previously granted delegate remains
approved; as the counterexample shows, the stale delegate can then execute
`transfer_from` against the new owner. -/
theorem C4_transfer_keeps_approvals :
    ∀ auth now st fromAddr toAddr token_id st2,
      transfer auth now st fromAddr toAddr token_id = .ok st2 →
      st2.approvals = st.approvals := by
  intro auth now st f t tid st2 h
  unfold transfer at h
  split at h
  · exact Except.noConfusion h
  split at h
  · exact Except.noConfusion h
  next owner heq =>
    split at h
    · exact Except.noConfusion h
    injection h with h
    subst h
    rfl

/-- C4 witness: the amended claim applied to the concrete transfer of token
7 from owner 1 to address 2. -/
theorem C4_witness :
    (transfer allAuth 0 nftA 1 2 7).map NFTState.approvals = .ok nftA.approvals := by
  obtain ⟨st2, hok⟩ : ∃ st2, transfer allAuth 0 nftA 1 2 7 = .ok st2 := ⟨_, rfl⟩
  rw [hok]
  show Except.ok st2.approvals = Except.ok nftA.approvals
  exact congrArg Except.ok (C4_transfer_keeps_approvals allAuth 0 nftA 1 2 7 st2 hok)

/-! ## C5 -/

/-- Cultural-nft storage where token 7 is owned by 1 with delegate 4
approved. -/
def nftD : NFTState := { nftA with approvals := upd1 nftA.approvals 7 4 }

/-- C5: `transfer` and `transfer_from` each grow token 7's provenance from
length 0 to length 1, but at the failing inputs — a successful sale
(`buy_nft` by buyer 2 on the active listing) and a successful auction
settlement (`end_auction` at time 300 with standing bid 150 > 0) — the
provenance chain stays at length 0: the settlement provenance legs are TODO
stubs in the source. -/
theorem C5_provenance_stubs :
    ((transfer allAuth 10 nftA 1 2 7).map fun s =>
        (s.provenance 7).map List.length) = .ok (some 1) ∧
    ((transfer_from allAuth 20 nftD 4 1 2 7).map fun s =>
        (s.provenance 7).map List.length) = .ok (some 1) ∧
    ((sys_buy_nft allAuth sysList 2 5 7).map fun s =>
        (s.nft.provenance 7).map List.length) = .ok (some 0) ∧
    ((sys_end_auction 300 sysAuct 5 7).map fun s =>
        ((s.market.auctions 5 7).map Auction.current_bid,
          (s.nft.provenance 7).map List.length)) = .ok (some 150, some 0) :=
  ⟨rfl, rfl, rfl, rfl⟩

/-! ## C6 -/

/-- C6: every successful `bid` stores an amount strictly greater than the
auction's current bid at the time of the call, so `current_bid` strictly
increases with every accepted bid: the accepted bid amounts of an auction
form a strictly increasing sequence over time. -/
theorem C6_bid_strictly_increasing :
    ∀ auth now st bidder nc tid amount st2 a a2,
      bid auth now st bidder nc tid amount = .ok st2 →
      st.auctions nc tid = some a → st2.auctions nc tid = some a2 →
      a.current_bid < a2.current_bid := by
  intro auth now st bidder nc tid amount st2 a a2 h ha ha2
  obtain ⟨a0, heq, -, -, -, hlt, -, hst2⟩ := bid_ok h
  rw [ha] at heq
  injection heq with heq
  subst heq
  subst hst2
  have hA : upd2 st.auctions nc tid
      { a with current_bid := amount, highest_bidder := bidder } nc tid
      = some a2 := ha2
  rw [upd2_same] at hA
  injection hA with hA
  subst hA
  exact hlt

/-- C6 witness: the strict increase applied to the concrete bid of 150 by
address 2 on the fresh auction `auct0` (current bid 0 → 150). -/
theorem C6_witness : auct0.current_bid < auctBid.current_bid :=
  C6_bid_strictly_increasing allAuth 10 stAuct 2 5 7 150 _ auct0 auctBid rfl rfl rfl

/-! ## C7 -/

/-- C7 counterexample: the claim asserts that on a fresh active auction a
bid exactly equal to the starting price fails `BidTooLow`. On `auct0`
(starting price 100, current bid 0, unexpired), a bid of exactly 100 by
address 2 instead succeeds and becomes the standing bid: the source rejects
only `amount < starting_price`, so equality passes. -/
theorem C7_equal_bid_counterexample :
    (bid allAuth 10 stAuct 2 5 7 100).map
      (fun s => (s.auctions 5 7).map fun a => (a.current_bid, a.highest_bidder))
      = .ok (some (100, 2)) := rfl

/-- C7 (amended): on an existing active, unexpired auction with current bid
0 and positive starting price, an authenticated bid whose amount exactly
equals the starting price succeeds (equality is accepted; only
`amount < starting_price` or `amount ≤ current_bid` are rejected). -/
theorem C7_equal_bid_accepted :
    ∀ auth now st bidder nc tid a,
      auth bidder = true → st.auctions nc tid = some a → a.active = true →
      now < a.end_time → a.current_bid = 0 → 0 < a.starting_price →
      bid auth now st bidder nc tid a.starting_price = .ok
        { st with
          auctions := upd2 st.auctions nc tid
            { a with current_bid := a.starting_price, highest_bidder := bidder },
          bids := upd3 st.bids nc tid bidder
            { bidder := bidder, amount := a.starting_price, timestamp := now } } := by
  intro auth now st bidder nc tid a ha heq hact hend hcb hsp
  simp [bid, ha, heq, hact, hcb, not_le.mpr hend, not_le.mpr hsp, lt_irrefl]

/-- C7 witness: the amended claim applied to `auct0`: a bid of exactly the
starting price 100 is accepted. -/
theorem C7_witness :
    bid allAuth 10 stAuct 2 5 7 auct0.starting_price = .ok
      { stAuct with
        auctions := upd2 stAuct.auctions 5 7
          { auct0 with current_bid := auct0.starting_price, highest_bidder := 2 },
        bids := upd3 stAuct.bids 5 7 2
          { bidder := 2, amount := auct0.starting_price, timestamp := 10 } } :=
  C7_equal_bid_accepted allAuth 10 stAuct 2 5 7 auct0 rfl rfl rfl
    (by norm_num [auct0]) rfl (by norm_num [auct0])

/-! ## C8 -/

/-- C8 counterexample: the claim asserts that every public operation,
including `end_auction`, verifies a caller-claimed principal before reading
state. But the source's `end_auction` takes no caller and performs no
`require_auth` at all: on the stored auction `auct0` it succeeds and
deactivates the auction although no principal whatsoever has been proven
(its embedding does not even consult an authorization environment). -/
theorem C8_end_auction_no_auth_counterexample :
    (end_auction 300 stAuct 5 7).map
      (fun s => (s.auctions 5 7).map Auction.active) = .ok (some false) := rfl

/-- C8 (amended): `list_nft`, `buy_nft`, `create_auction`, `bid`,
`cancel_listing` and `cancel_auction` each verify the caller-claimed
principal before reading any state and abort with `Unauthorized` (hence
with no state change, operations being all-or-nothing) when verification
fails; `end_auction` alone takes no principal and performs no
verification. -/
theorem C8_auth_amended :
    ∀ (auth : Auth) (p : Addr) now st nc tid price sp dur amount,
      auth p = false →
      list_nft auth now st p nc tid price = .error .Unauthorized ∧
      buy_nft auth st p nc tid = .error .Unauthorized ∧
      create_auction auth now st p nc tid sp dur = .error .Unauthorized ∧
      bid auth now st p nc tid amount = .error .Unauthorized ∧
      cancel_listing auth st p nc tid = .error .Unauthorized ∧
      cancel_auction auth st p nc tid = .error .Unauthorized := by
  intro auth p now st nc tid price sp dur amount h
  refine ⟨?_, ?_, ?_, ?_, ?_, ?_⟩ <;>
    simp [list_nft, buy_nft, create_auction, bid, cancel_listing, cancel_auction, h]

/-- C8 witness: with no principal proven, a concrete `bid` aborts
`Unauthorized`. -/
theorem C8_witness :
    bid noAuth 10 stAuct 2 5 7 150 = .error .Unauthorized :=
  (C8_auth_amended noAuth 2 10 stAuct 5 7 100 100 200 150 rfl).2.2.2.1

/-! ## C9 -/

/-- C9: for an existing active auction, `end_auction` strictly before
`end_time` always fails `TooEarly` (the panic aborts the invocation, so the
stored auction is untouched), and at or after `end_time` it succeeds,
storing the same auction with `active := false`. -/
theorem C9_end_auction_timing :
    ∀ now st nc tid a,
      st.auctions nc tid = some a → a.active = true →
      (now < a.end_time → end_auction now st nc tid = .error .TooEarly) ∧
      (a.end_time ≤ now → end_auction now st nc tid = .ok
        { st with auctions := upd2 st.auctions nc tid { a with active := false } }) := by
  intro now st nc tid a heq hact
  constructor
  · intro hlt
    simp [end_auction, heq, hact, hlt]
  · intro hge
    simp [end_auction, heq, hact, not_lt.mpr hge]

/-- C9 witness: on the stored auction `auct0` (ends at 200), `end_auction`
at time 50 fails `TooEarly` and at time 300 succeeds and deactivates. -/
theorem C9_witness :
    end_auction 50 stAuct 5 7 = .error .TooEarly ∧
    end_auction 300 stAuct 5 7 = .ok
      { stAuct with auctions := upd2 stAuct.auctions 5 7 { auct0 with active := false } } :=
  ⟨(C9_end_auction_timing 50 stAuct 5 7 auct0 rfl rfl).1 (by norm_num [auct0]),
   (C9_end_auction_timing 300 stAuct 5 7 auct0 rfl rfl).2 (by norm_num [auct0])⟩

/-! ## C10 -/

/-- C10: with the seller authenticated and valid parameters,
`create_auction` fails `AlreadyInAuction` whenever any auction record is
present for the asset — the source checks key presence, not the active
flag — and both `end_auction` and `cancel_auction` keep the (deactivated)
record in storage, so once an auction existed for an asset no new auction
can ever be created for it. -/
theorem C10_auction_record_permanent :
    (∀ auth now st seller nc tid sp dur,
        auth seller = true → 0 < sp → dur ≠ 0 →
        (st.auctions nc tid).isSome = true →
        create_auction auth now st seller nc tid sp dur = .error .AlreadyInAuction) ∧
    (∀ now st nc tid st2, end_auction now st nc tid = .ok st2 →
        (st2.auctions nc tid).isSome = true) ∧
    (∀ auth st seller nc tid st2, cancel_auction auth st seller nc tid = .ok st2 →
        (st2.auctions nc tid).isSome = true) := by
  refine ⟨?_, ?_, ?_⟩
  · intro auth now st seller nc tid sp dur ha hsp hdur hsome
    simp [create_auction, ha, hsp.not_le, hdur, hsome]
  · intro now st nc tid st2 h
    unfold end_auction at h
    split at h
    · exact Except.noConfusion h
    next a heq =>
      split at h
      · exact Except.noConfusion h
      split at h
      · exact Except.noConfusion h
      injection h with h
      subst h
      show (upd2 st.auctions nc tid { a with active := false } nc tid).isSome = true
      rw [upd2_same]
      rfl
  · intro auth st seller nc tid st2 h
    unfold cancel_auction at h
    split at h
    · exact Except.noConfusion h
    split at h
    · exact Except.noConfusion h
    next a heq =>
      split at h
      · exact Except.noConfusion h
      split at h
      · exact Except.noConfusion h
      split at h
      · exact Except.noConfusion h
      injection h with h
      subst h
      show (upd2 st.auctions nc tid { a with active := false } nc tid).isSome = true
      rw [upd2_same]
      rfl

/-- C10 witness: on storage holding only a deactivated auction record for
asset (5, 7), a fresh `create_auction` with valid parameters still fails
`AlreadyInAuction`. -/
theorem C10_witness :
    create_auction allAuth 400 stEnded 1 5 7 100 50 = .error .AlreadyInAuction :=
  C10_auction_record_permanent.1 allAuth 400 stEnded 1 5 7 100 50 rfl
    (by norm_num) (by norm_num) rfl

end Permamuseum
